import Mathlib

/-!
Verification of the computational core of the waveform analyzer.

The shallow embedding below follows `src/ui_components.py` (the event handlers
that carry the core logic) together with the repository's spec for the
`app_state`, `waveform_generator`, `config` and `data_export` modules, whose
source files are not part of the checkout; definitions taken from the spec
rather than from source say so in their doc comments.  Python floats are
modelled as rationals (`ℚ`) except where genuinely real-valued functions
(`sin`, `sqrt`) appear, which are modelled over `ℝ`.
-/

namespace WaveformAnalyzer

/-- The closed set of waveform kinds {sine, square, sawtooth, triangle}. -/
inductive WfType where
  | sine
  | square
  | sawtooth
  | triangle
deriving DecidableEq, Repr

/-- One waveform definition (`WaveformSpec`): the fields read and written by the
handlers in `src/ui_components.py` (`wf.id`, `wf.name`, `wf.wf_type`, `wf.freq`,
`wf.amp`, `wf.offset`, `wf.duty_cycle`, `wf.enabled`). -/
structure Waveform where
  id : ℕ
  name : String
  wf_type : WfType
  freq : ℚ
  amp : ℚ
  offset : ℚ
  duty_cycle : ℚ
  enabled : Bool
deriving DecidableEq, Repr

/-- The mutable application state (`app_state`) as used by
`src/ui_components.py`: the waveform list, the active selection, the shared
display settings and the three envelope flags plus the derived hide flag. -/
structure AppState where
  wfs : List Waveform
  active_wf_index : ℕ
  next_id : ℕ
  duration : ℚ
  sample_rate : ℚ
  show_max_env : Bool
  show_min_env : Bool
  show_rms_env : Bool
  hide_src_wfs : Bool
deriving DecidableEq, Repr

/-- `MAX_WAVEFORMS`; the spec fixes it at 5. -/
def MAX_WFS : ℕ := 5

/-- `MIN_WAVEFORMS`; the spec fixes it at 1. -/
def MIN_WFS : ℕ := 1

/-- Modelled from the spec: the default display name for id `i` is
`"Waveform {id+1}"` (§3, and the literal format string in `_on_rename_wf`,
src/ui_components.py line 654). -/
def defaultName (i : ℕ) : String := "Waveform " ++ toString (i + 1)

/-- Modelled from the spec: the `display_name` property of a spec (module
`app_state`, not under src/): the user-set name, or the default name derived
from the id when no user name is set. -/
def displayName (w : Waveform) : String :=
  if w.name = "" then defaultName w.id else w.name

/-- Modelled from the spec: `get_wf(id)` accessor of `app_state` (not under
src/): the member of the collection carrying that id. -/
def getWf (st : AppState) (wfId : ℕ) : Option Waveform :=
  st.wfs.find? (fun w => w.id == wfId)

/-- Modelled from the spec: `get_enabled_wfs` / `enabled_members()` of
`app_state` (not under src/): the enabled members in collection order. -/
def enabledWfs (st : AppState) : List Waveform :=
  st.wfs.filter (fun w => w.enabled)

/-- Modelled from the spec: `can_show_envelopes()` of `app_state` (not under
src/): at least two members are enabled (the per-member `enabled` toggle is the
member's visibility). -/
def canShowEnvelopes (st : AppState) : Bool :=
  decide (2 ≤ (enabledWfs st).length)

/-- `_auto_hide_source_waveforms` (src/ui_components.py lines 755-763): the
hide flag is recomputed as "some envelope is shown". -/
def autoHideSourceWaveforms (st : AppState) : AppState :=
  { st with hide_src_wfs := st.show_max_env || st.show_min_env || st.show_rms_env }

/-- `_update_env_controls` (src/ui_components.py lines 1277-1306): when
envelopes cannot be shown, all three envelope flags and the hide flag are
forced back to false. -/
def updateEnvControls (st : AppState) : AppState :=
  if canShowEnvelopes st then st
  else { st with show_max_env := false, show_min_env := false,
                 show_rms_env := false, hide_src_wfs := false }

/-- `_update_add_button` (src/ui_components.py lines 1308-1311): the add
action is available iff the collection is below `MAX_WFS` and sources are not
hidden. -/
def addButtonEnabled (st : AppState) : Bool :=
  decide (st.wfs.length < MAX_WFS) && !st.hide_src_wfs

/-- `_update_wf_list` (src/ui_components.py lines 1184-1196): a remove button
is created for each row only when the collection is above `MIN_WFS`. -/
def removeButtonShown (st : AppState) : Bool :=
  decide (MIN_WFS < st.wfs.length)

/-- `_update_wf_list` (src/ui_components.py lines 1186-1192): each remove
button is in the normal (clickable) state iff sources are not hidden. -/
def removeButtonEnabled (st : AppState) : Bool :=
  !st.hide_src_wfs

/-- A remove action can actually be taken only when its button both exists and
is enabled (src/ui_components.py lines 1184-1196). -/
def removeButtonActionable (st : AppState) : Bool :=
  removeButtonShown st && removeButtonEnabled st

/-- Modelled from the spec: `set_active` of `app_state` (not under src/),
reached through `_on_select_wf` (src/ui_components.py lines 793-797): setting
an id that is not present is rejected with no state change (§4.3). -/
def setActive (st : AppState) (wfId : ℕ) : AppState :=
  if st.wfs.any (fun w => w.id == wfId) then { st with active_wf_index := wfId }
  else st

/-- `max(lo, min(hi, value))`, the clamping expression used verbatim by every
numeric entry handler in src/ui_components.py. -/
def clampVal (lo hi x : ℚ) : ℚ := max lo (min hi x)

/-- Modelled from the spec: the numeric bound constants (`DURATION_MIN`,
`FREQ_MIN`, ... in module `app_state`, not under src/); their concrete values
are irrelevant to the clamping behaviour, so they are carried abstractly. -/
structure Bounds where
  dur_min : ℚ
  dur_max : ℚ
  freq_min : ℚ
  freq_max : ℚ
  amp_min : ℚ
  amp_max : ℚ
  off_min : ℚ
  off_max : ℚ
  duty_min : ℚ
  duty_max : ℚ
deriving DecidableEq, Repr

/-- `_on_duration_enter` (src/ui_components.py lines 702-714) on an
already-parsed numeric value: clamp into `[DURATION_MIN, DURATION_MAX]` and
store. -/
def onDurationEnter (b : Bounds) (st : AppState) (v : ℚ) : AppState :=
  { st with duration := clampVal b.dur_min b.dur_max v }

/-- `_on_freq_enter` (src/ui_components.py lines 807-821) acting on the active
waveform object: clamp into `[FREQ_MIN, FREQ_MAX]` and store. -/
def onFreqEnter (b : Bounds) (w : Waveform) (v : ℚ) : Waveform :=
  { w with freq := clampVal b.freq_min b.freq_max v }

/-- `_on_amp_enter` (src/ui_components.py lines 845-859): clamp into
`[AMP_MIN, AMP_MAX]` and store. -/
def onAmpEnter (b : Bounds) (w : Waveform) (v : ℚ) : Waveform :=
  { w with amp := clampVal b.amp_min b.amp_max v }

/-- `_on_offset_enter` (src/ui_components.py lines 883-897): clamp into
`[OFFSET_MIN, OFFSET_MAX]` and store. -/
def onOffsetEnter (b : Bounds) (w : Waveform) (v : ℚ) : Waveform :=
  { w with offset := clampVal b.off_min b.off_max v }

/-- `_on_duty_enter` (src/ui_components.py lines 921-935): clamp into
`[DUTY_MIN, DUTY_MAX]` and store. -/
def onDutyEnter (b : Bounds) (w : Waveform) (v : ℚ) : Waveform :=
  { w with duty_cycle := clampVal b.duty_min b.duty_max v }

/-- What "silently clamped to the nearest bound, in-range stored unchanged"
means for a stored result `r` of input `x` against the range `[lo, hi]`. -/
def ClampSpec (lo hi x r : ℚ) : Prop :=
  (x < lo → r = lo) ∧ (hi < x → r = hi) ∧ (lo ≤ x → x ≤ hi → r = x)

/-- A sample waveform used to instantiate witness statements. -/
def sampleWf : Waveform :=
  { id := 0, name := "", wf_type := .square, freq := 1, amp := 1,
    offset := 0, duty_cycle := 50, enabled := true }

/-- A second sample waveform (distinct id, user-set name, disabled). -/
def sampleWf2 : Waveform :=
  { id := 1, name := "My Wave", wf_type := .sine, freq := 2, amp := 3,
    offset := 1, duty_cycle := 50, enabled := false }

/-- A sample application state holding the two sample waveforms. -/
def sampleState : AppState :=
  { wfs := [sampleWf, sampleWf2], active_wf_index := 0, next_id := 2,
    duration := 1, sample_rate := 2, show_max_env := false,
    show_min_env := false, show_rms_env := false, hide_src_wfs := false }

/-- Sample bound constants used to instantiate witness statements. -/
def sampleBounds : Bounds :=
  { dur_min := 1, dur_max := 10, freq_min := 1, freq_max := 100,
    amp_min := 1, amp_max := 10, off_min := -5, off_max := 5,
    duty_min := 1, duty_max := 99 }

/-- Sample state with the max envelope checkbox freshly ticked. -/
def maxEnvState : AppState := { sampleState with show_max_env := true }

/-- Sample state with the source waveforms hidden. -/
def hiddenState : AppState := { sampleState with hide_src_wfs := true }

/-- Sample state with envelope flags and the hide flag stuck on while only one
waveform is enabled. -/
def staleEnvState : AppState :=
  { sampleState with show_max_env := true, show_rms_env := true,
                     hide_src_wfs := true }

lemma clampVal_spec (lo hi x : ℚ) (h : lo ≤ hi) : ClampSpec lo hi x (clampVal lo hi x) := by
  refine ⟨fun hx => ?_, fun hx => ?_, fun h1 h2 => ?_⟩
  · exact max_eq_left ((min_le_right hi x).trans hx.le)
  · rw [clampVal, min_eq_left hx.le]
    exact max_eq_right h
  · rw [clampVal, min_eq_right h2]
    exact max_eq_right h1

/-- C3: the hide flag recomputed by `_auto_hide_source_waveforms` is exactly
"some envelope is shown", and whenever the hide flag is set the add action and
every remove action are unavailable, so no structural add/remove mutation can
be initiated while an envelope is shown. -/
theorem c3_hide_flag_locks_structural_edits (st st' : AppState) :
    (autoHideSourceWaveforms st).hide_src_wfs
      = (st.show_max_env || st.show_min_env || st.show_rms_env) ∧
    (st'.hide_src_wfs = true →
      addButtonEnabled st' = false ∧ removeButtonEnabled st' = false ∧
      removeButtonActionable st' = false) := by
  refine ⟨rfl, fun h => ⟨?_, ?_, ?_⟩⟩
  · simp [addButtonEnabled, h]
  · simp [removeButtonEnabled, h]
  · simp [removeButtonActionable, removeButtonEnabled, h]

/-- Witness for C3 at a concrete state with the max envelope shown. -/
theorem c3_witness :
    (autoHideSourceWaveforms maxEnvState).hide_src_wfs = true ∧
    addButtonEnabled hiddenState = false ∧
    removeButtonEnabled hiddenState = false ∧
    removeButtonActionable hiddenState = false := by
  have h := c3_hide_flag_locks_structural_edits maxEnvState hiddenState
  exact ⟨h.1, h.2 rfl⟩

/-- C10: whenever fewer than two waveforms are enabled
(`can_show_envelopes()` is false), `_update_env_controls` forces all three
envelope show flags and the hide flag to false, so the envelope display and the
structural-edit lockout cannot persist. -/
theorem c10_env_reset_when_cannot_show (st : AppState)
    (h : canShowEnvelopes st = false) :
    (updateEnvControls st).show_max_env = false ∧
    (updateEnvControls st).show_min_env = false ∧
    (updateEnvControls st).show_rms_env = false ∧
    (updateEnvControls st).hide_src_wfs = false := by
  simp [updateEnvControls, h]

/-- Witness for C10 at a concrete state: one enabled waveform, all envelope
flags and the hide flag stuck on; the update clears everything. -/
theorem c10_witness :
    canShowEnvelopes staleEnvState = false ∧
    (updateEnvControls staleEnvState).show_max_env = false ∧
    (updateEnvControls staleEnvState).show_min_env = false ∧
    (updateEnvControls staleEnvState).show_rms_env = false ∧
    (updateEnvControls staleEnvState).hide_src_wfs = false := by
  refine ⟨by decide, ?_⟩
  exact c10_env_reset_when_cannot_show staleEnvState (by decide)

/-- C6: every numeric parameter setter (duration, frequency, amplitude,
offset, duty cycle) stores the clamp of its input into its fixed `[min, max]`
range: out-of-range values are silently moved to the nearest bound, in-range
values are stored unchanged, and the setters are total functions (no error is
raised). -/
theorem c6_numeric_setters_clamp (b : Bounds) (st : AppState) (w : Waveform) (v : ℚ)
    (hd : b.dur_min ≤ b.dur_max) (hf : b.freq_min ≤ b.freq_max)
    (ha : b.amp_min ≤ b.amp_max) (ho : b.off_min ≤ b.off_max)
    (hy : b.duty_min ≤ b.duty_max) :
    ClampSpec b.dur_min b.dur_max v (onDurationEnter b st v).duration ∧
    ClampSpec b.freq_min b.freq_max v (onFreqEnter b w v).freq ∧
    ClampSpec b.amp_min b.amp_max v (onAmpEnter b w v).amp ∧
    ClampSpec b.off_min b.off_max v (onOffsetEnter b w v).offset ∧
    ClampSpec b.duty_min b.duty_max v (onDutyEnter b w v).duty_cycle :=
  ⟨clampVal_spec _ _ _ hd, clampVal_spec _ _ _ hf, clampVal_spec _ _ _ ha,
   clampVal_spec _ _ _ ho, clampVal_spec _ _ _ hy⟩

/-- Witness for C6 at the sample bounds, state and waveform with input 1000
(out of range above for every parameter). -/
theorem c6_witness :
    sampleBounds.dur_min ≤ sampleBounds.dur_max ∧
    ClampSpec sampleBounds.dur_min sampleBounds.dur_max 1000
      (onDurationEnter sampleBounds sampleState 1000).duration ∧
    ClampSpec sampleBounds.freq_min sampleBounds.freq_max 1000
      (onFreqEnter sampleBounds sampleWf 1000).freq ∧
    ClampSpec sampleBounds.amp_min sampleBounds.amp_max 1000
      (onAmpEnter sampleBounds sampleWf 1000).amp ∧
    ClampSpec sampleBounds.off_min sampleBounds.off_max 1000
      (onOffsetEnter sampleBounds sampleWf 1000).offset ∧
    ClampSpec sampleBounds.duty_min sampleBounds.duty_max 1000
      (onDutyEnter sampleBounds sampleWf 1000).duty_cycle := by
  refine ⟨by decide, ?_⟩
  exact c6_numeric_setters_clamp sampleBounds sampleState sampleWf 1000
    (by decide) (by decide) (by decide) (by decide) (by decide)

/-- C7: `set_active` with an id not present in the collection is rejected with
no state change, and whenever the active selection referred to an existing
member before a `set_active` call, it still does afterwards. -/
theorem c7_set_active_safe (st : AppState) (i : ℕ) :
    (st.wfs.any (fun w => w.id == i) = false → setActive st i = st) ∧
    (st.wfs.any (fun w => w.id == st.active_wf_index) = true →
      (setActive st i).wfs.any
        (fun w => w.id == (setActive st i).active_wf_index) = true) := by
  constructor
  · intro h
    simp [setActive, h]
  · intro h
    by_cases hc : st.wfs.any (fun w => w.id == i) = true
    · simp [setActive, hc]
    · simp only [Bool.not_eq_true] at hc
      simp [setActive, hc, h]

/-- Witness for C7: selecting the absent id 7 in the sample state is a no-op,
and the active selection still refers to an existing member. -/
theorem c7_witness :
    sampleState.wfs.any (fun w => w.id == 7) = false ∧
    setActive sampleState 7 = sampleState ∧
    sampleState.wfs.any (fun w => w.id == sampleState.active_wf_index) = true ∧
    (setActive sampleState 7).wfs.any
      (fun w => w.id == (setActive sampleState 7).active_wf_index) = true := by
  have h := c7_set_active_safe sampleState 7
  exact ⟨by decide, h.1 (by decide), by decide, h.2 (by decide)⟩

/-- Python's `str.strip()` (no arguments): surrounding whitespace removed,
embedded executably at the character-list level. -/
def pyStrip (s : String) : String :=
  ⟨((s.data.dropWhile Char.isWhitespace).reverse.dropWhile Char.isWhitespace).reverse⟩

/-- Python's `str.replace(" ", "_")` for the single-character pattern used in
`_on_export_clicked`: every space becomes an underscore. -/
def underscoreSpaces (s : String) : String :=
  ⟨s.data.map (fun c => if c == ' ' then '_' else c)⟩

/-- `_is_duplicate_name` (src/ui_components.py lines 627-632): some member
other than `excludeId` currently carries the name `nm`. -/
def isDuplicateName (st : AppState) (nm : String) (excludeId : ℕ) : Bool :=
  st.wfs.any (fun w => w.id != excludeId && displayName w == nm)

/-- `wf.name = new_name` applied to the member carrying `wfId` (the object
`get_wf` returned), expressed as a map over the collection. -/
def setNameById (wfs : List Waveform) (wfId : ℕ) (nn : String) : List Waveform :=
  wfs.map (fun w => if w.id = wfId then { w with name := nn } else w)

/-- `_on_rename_wf` (src/ui_components.py lines 634-661), one attempt with the
entered text `input`: the text is stripped; the name checked for collisions is
the stripped text, or the default name for the member's id when the stripped
text is empty; a collision rejects the attempt with no state change (the
dialog re-prompts), otherwise the stripped text is stored as the member's
`name`. -/
def renameWf (st : AppState) (wfId : ℕ) (input : String) : AppState × Bool :=
  match getWf st wfId with
  | none => (st, false)
  | some wf =>
    let newName := pyStrip input
    let checkName := if newName = "" then defaultName wf.id else newName
    if isDuplicateName st checkName wfId then (st, false)
    else ({ st with wfs := setNameById st.wfs wfId newName }, true)

/-- The persisted configuration record (`ConfigRecord`): default duration and
waveform parameters plus the display bounds, per §3 of the spec and the keys
handled by `on_save` in src/ui_components.py. -/
structure ConfigRecord where
  duration : ℚ
  waveform_type : WfType
  frequency : ℚ
  amplitude : ℚ
  offset : ℚ
  duty_cycle : ℚ
  y_axis_title : String
  y_min : ℚ
  y_max : ℚ
deriving DecidableEq, Repr

/-- Modelled from the spec: `add_wf` of `app_state` (not under src/), §4.3:
creates a spec seeded from the config defaults, assigns the next unused id
(never reused), appends it, and returns it; returns nothing and changes no
state at `MAX_WAVEFORMS` or while `hide_src_wfs` is set. -/
def addWf (cfg : ConfigRecord) (st : AppState) : AppState × Option Waveform :=
  if MAX_WFS ≤ st.wfs.length ∨ st.hide_src_wfs = true then (st, none)
  else
    let w : Waveform :=
      { id := st.next_id, name := "", wf_type := cfg.waveform_type,
        freq := cfg.frequency, amp := cfg.amplitude, offset := cfg.offset,
        duty_cycle := cfg.duty_cycle, enabled := true }
    ({ st with wfs := st.wfs ++ [w], next_id := st.next_id + 1 }, some w)

/-- Modelled from the spec: `remove_wf` of `app_state` (not under src/), §4.3:
fails with no state change at `MIN_WAVEFORMS` or when no member carries the
id; otherwise the member is deleted and, if it was active, the selection moves
to the preceding member, or the first remaining member when none precedes. -/
def removeWf (st : AppState) (wfId : ℕ) : AppState × Bool :=
  if st.wfs.length ≤ MIN_WFS then (st, false)
  else if st.wfs.all (fun w => w.id != wfId) then (st, false)
  else
    let rest := st.wfs.filter (fun w => w.id != wfId)
    let newActive :=
      if st.active_wf_index = wfId then
        match (st.wfs.takeWhile (fun w => w.id != wfId)).getLast? with
        | some p => p.id
        | none =>
          match rest.head? with
          | some h => h.id
          | none => st.active_wf_index
      else st.active_wf_index
    ({ st with wfs := rest, active_wf_index := newActive }, true)

/-- The live display-bound state kept by the main window (`_plot_y_min`,
`_plot_y_max`, `_plot_y_title` in src/ui_components.py lines 94-97). -/
structure LiveDisplay where
  y_min : ℚ
  y_max : ℚ
  y_title : String
deriving DecidableEq, Repr

/-- `on_save` inside `_on_configure` (src/ui_components.py lines 285-324) on an
already-parsed record `new`: a record with `y_min ≥ y_max` is rejected before
any write; otherwise the record is saved (`ioOk` models the Boolean result of
`save_config`, module `config` not under src/) and, on success only, the
display-bound fields are pushed into the live display at once.  The waveform
collection `wfs` is threaded through untouched: saved waveform-parameter
defaults reach only specs created from the config at a future start. -/
def onSave (store : ConfigRecord) (disp : LiveDisplay) (wfs : List Waveform)
    (new : ConfigRecord) (ioOk : Bool) :
    ConfigRecord × LiveDisplay × List Waveform × Bool :=
  if new.y_max ≤ new.y_min then (store, disp, wfs, false)
  else if ioOk then
    (new, { y_min := new.y_min, y_max := new.y_max, y_title := new.y_axis_title },
     wfs, true)
  else (store, disp, wfs, false)

/-- A sample config record used to instantiate witness statements. -/
def sampleConfig : ConfigRecord :=
  { duration := 1, waveform_type := .sine, frequency := 1, amplitude := 1,
    offset := 0, duty_cycle := 50, y_axis_title := "Amplitude",
    y_min := -10, y_max := 10 }

/-- The sample state reduced to its single first waveform. -/
def singleState : AppState := { sampleState with wfs := [sampleWf] }

lemma getWf_id {st : AppState} {wfId : ℕ} {wf : Waveform}
    (hget : getWf st wfId = some wf) : wf.id = wfId := by
  have h := List.find?_some hget
  simpa using h

/-- C4: for one rename attempt on an existing member, a collision of the
checked name (the stripped input, or the member's default name when the
stripped input is empty) with another member's current name is rejected with
no state change; otherwise the stripped input is stored, and the member's
resulting display name is the checked name — in particular the default name
`"Waveform {id+1}"` when the stripped input was empty. -/
theorem c4_rename_trims_defaults_rejects_duplicates
    (st : AppState) (wfId : ℕ) (input : String) (wf : Waveform)
    (hget : getWf st wfId = some wf) :
    (isDuplicateName st
        (if pyStrip input = "" then defaultName wfId else pyStrip input) wfId = true →
      renameWf st wfId input = (st, false)) ∧
    (isDuplicateName st
        (if pyStrip input = "" then defaultName wfId else pyStrip input) wfId = false →
      renameWf st wfId input =
        ({ st with wfs := setNameById st.wfs wfId (pyStrip input) }, true) ∧
      displayName { wf with name := pyStrip input } =
        (if pyStrip input = "" then defaultName wfId else pyStrip input)) := by
  have hid : wf.id = wfId := getWf_id hget
  subst hid
  constructor
  · intro hdup
    simp [renameWf, hget, hdup]
  · intro hdup
    refine ⟨by simp [renameWf, hget, hdup], ?_⟩
    by_cases he : pyStrip input = ""
    · simp [displayName, he]
    · simp [displayName, he]

/-- Witness for C4: in the sample state, renaming member 1 to " Waveform 1 "
strips to "Waveform 1", which is member 0's current (default) name, so the
attempt is rejected and the state is unchanged. -/
theorem c4_witness :
    getWf sampleState 1 = some sampleWf2 ∧
    isDuplicateName sampleState
      (if pyStrip " Waveform 1 " = "" then defaultName 1
       else pyStrip " Waveform 1 ") 1 = true ∧
    renameWf sampleState 1 " Waveform 1 " = (sampleState, false) := by
  have h := c4_rename_trims_defaults_rejects_duplicates sampleState 1
    " Waveform 1 " sampleWf2 (by decide)
  exact ⟨by decide, by decide, h.1 (by decide)⟩

lemma length_le_filter_ne_add_one (l : List Waveform) (i : ℕ)
    (h : (l.map (fun w => w.id)).Nodup) :
    l.length ≤ (l.filter (fun w => w.id != i)).length + 1 := by
  induction l with
  | nil => simp
  | cons w t ih =>
    simp only [List.map_cons, List.nodup_cons] at h
    obtain ⟨hw, ht⟩ := h
    by_cases hwi : w.id = i
    · subst hwi
      have hfix : t.filter (fun x => x.id != w.id) = t := by
        refine List.filter_eq_self.mpr fun a ha => ?_
        simp only [bne_iff_ne, ne_eq]
        intro heq
        exact hw (heq ▸ List.mem_map_of_mem (fun x => x.id) ha)
      simp [List.filter_cons, hfix]
    · have hkeep : (w.id != i) = true := by simp [hwi]
      simp only [List.filter_cons, hkeep, if_true, List.length_cons,
        Nat.add_le_add_iff_right]
      exact ih ht

/-- C5: starting from a collection satisfying the size invariant
`1 ≤ len ≤ 5` with distinct ids, both `add` and `remove` preserve the
invariant; `add` at 5 members creates nothing and leaves the size at 5, and
`remove` at 1 member fails and leaves the size at 1 — in both cases as total
functions, not exceptions. -/
theorem c5_collection_size_invariant (cfg : ConfigRecord) (st : AppState) (i : ℕ)
    (hnd : (st.wfs.map (fun w => w.id)).Nodup)
    (hlo : MIN_WFS ≤ st.wfs.length) (hhi : st.wfs.length ≤ MAX_WFS) :
    (MIN_WFS ≤ (addWf cfg st).1.wfs.length ∧ (addWf cfg st).1.wfs.length ≤ MAX_WFS) ∧
    (MIN_WFS ≤ (removeWf st i).1.wfs.length ∧
      (removeWf st i).1.wfs.length ≤ MAX_WFS) ∧
    (st.wfs.length = MAX_WFS →
      (addWf cfg st).2 = none ∧ (addWf cfg st).1.wfs.length = MAX_WFS) ∧
    (st.wfs.length = MIN_WFS →
      (removeWf st i).2 = false ∧ (removeWf st i).1.wfs.length = MIN_WFS) := by
  refine ⟨?_, ?_, ?_, ?_⟩
  · by_cases hc : MAX_WFS ≤ st.wfs.length ∨ st.hide_src_wfs = true
    · simpa [addWf, hc] using ⟨hlo, hhi⟩
    · have hlt : st.wfs.length < MAX_WFS := by
        rcases not_or.mp hc with ⟨h1, _⟩
        omega
      simp only [addWf, if_neg hc]
      constructor
      · simp only [List.length_append, List.length_cons, List.length_nil]
        omega
      · simp only [List.length_append, List.length_cons, List.length_nil]
        omega
  · by_cases h1 : st.wfs.length ≤ MIN_WFS
    · simpa [removeWf, h1] using ⟨hlo, hhi⟩
    · by_cases h2 : st.wfs.all (fun w => w.id != i) = true
      · simpa [removeWf, h1, h2] using ⟨hlo, hhi⟩
      · have hfl := length_le_filter_ne_add_one st.wfs i hnd
        have hle := List.length_filter_le (fun w => w.id != i) st.wfs
        simp only [removeWf, if_neg h1, if_neg h2]
        constructor
        · simp only [MIN_WFS] at h1 ⊢
          omega
        · simp only [MAX_WFS] at hhi ⊢
          omega
  · intro hmax
    have hc : MAX_WFS ≤ st.wfs.length ∨ st.hide_src_wfs = true := Or.inl hmax.ge
    simp [addWf, hc, hmax]
  · intro hmin
    have h1 : st.wfs.length ≤ MIN_WFS := hmin.le
    simp [removeWf, h1, hmin]

/-- Witness for C5 at a single-member sample state: removing the only member
fails and the size stays at 1. -/
theorem c5_witness :
    (singleState.wfs.map (fun w => w.id)).Nodup ∧
    MIN_WFS ≤ singleState.wfs.length ∧ singleState.wfs.length ≤ MAX_WFS ∧
    (removeWf singleState 0).2 = false ∧
    (removeWf singleState 0).1.wfs.length = MIN_WFS := by
  have h := c5_collection_size_invariant sampleConfig singleState 0
    (by decide) (by decide) (by decide)
  exact ⟨by decide, by decide, by decide, h.2.2.2 (by decide)⟩

/-- C8: saving a record whose `y_min` is not below its `y_max` is rejected
before any write — persisted record, live display and waveform collection all
unchanged — while a valid record that the store accepts is persisted whole and
its display-bound fields are applied to the live display at once, the waveform
collection (and so every existing spec's parameters) left untouched. -/
theorem c8_save_validation_and_live_display
    (store new : ConfigRecord) (disp : LiveDisplay) (wfs : List Waveform)
    (ioOk : Bool) :
    (new.y_max ≤ new.y_min →
      onSave store disp wfs new ioOk = (store, disp, wfs, false)) ∧
    (new.y_min < new.y_max → ioOk = true →
      onSave store disp wfs new ioOk =
        (new, { y_min := new.y_min, y_max := new.y_max,
                y_title := new.y_axis_title }, wfs, true)) := by
  constructor
  · intro h
    simp [onSave, h]
  · intro h hio
    rw [onSave, if_neg (by exact not_le.mpr h), if_pos hio]

/-- Witness for C8: a record with `y_min = 2 ≥ 1 = y_max` is rejected with
nothing changed; a valid record that saves successfully updates both the
store and the live display. -/
theorem c8_witness :
    ({ sampleConfig with y_min := 2, y_max := 1 } : ConfigRecord).y_max ≤
      ({ sampleConfig with y_min := 2, y_max := 1 } : ConfigRecord).y_min ∧
    onSave sampleConfig ⟨-10, 10, "Amplitude"⟩ [sampleWf]
        { sampleConfig with y_min := 2, y_max := 1 } true =
      (sampleConfig, ⟨-10, 10, "Amplitude"⟩, [sampleWf], false) ∧
    sampleConfig.y_min < sampleConfig.y_max ∧
    onSave sampleConfig ⟨-10, 10, "Amplitude"⟩ [sampleWf] sampleConfig true =
      (sampleConfig, ⟨-10, 10, "Amplitude"⟩, [sampleWf], true) := by
  have h1 := c8_save_validation_and_live_display sampleConfig
    { sampleConfig with y_min := 2, y_max := 1 } ⟨-10, 10, "Amplitude"⟩
    [sampleWf] true
  have h2 := c8_save_validation_and_live_display sampleConfig sampleConfig
    ⟨-10, 10, "Amplitude"⟩ [sampleWf] true
  exact ⟨by decide, h1.1 (by decide), by decide, h2.2 (by decide) rfl⟩

/-- Modelled from the spec: the sample count of `gen_wf` (`waveform_generator`,
not under src/), §4.1: `N = round(duration × sample_rate) + 1`. -/
def sampleCount (duration sample_rate : ℚ) : ℕ :=
  (round (duration * sample_rate)).toNat + 1

/-- Modelled from the spec: the time grid of `gen_wf` (§4.1):
`time[i] = i / sample_rate` for `i = 0..N-1`. -/
def genTime (duration sample_rate : ℚ) : List ℚ :=
  (List.range (sampleCount duration sample_rate)).map
    (fun i : ℕ => (i : ℚ) / sample_rate)

/-- Modelled from the spec: the per-kind amplitude formula of `gen_wf` (§4.1),
with phase `φ(t) = frequency × t mod 1` embedded as `Int.fract`. -/
noncomputable def waveValue (ty : WfType) (f a o d : ℚ) (t : ℚ) : ℝ :=
  match ty with
  | .sine => (o : ℝ) + (a : ℝ) * Real.sin (2 * Real.pi * (f : ℝ) * (t : ℝ))
  | .square =>
      if Int.fract ((f : ℝ) * (t : ℝ)) < (d : ℝ) / 100 then (o : ℝ) + (a : ℝ)
      else (o : ℝ) - (a : ℝ)
  | .sawtooth => (o : ℝ) + (a : ℝ) * (2 * Int.fract ((f : ℝ) * (t : ℝ)) - 1)
  | .triangle =>
      (o : ℝ) + (a : ℝ) * (4 * |Int.fract ((f : ℝ) * (t : ℝ)) - 1 / 2| - 1) * (-1)

/-- Modelled from the spec: `gen_wf` of `waveform_generator` (not under src/),
§4.1: the time grid paired with the amplitude sampled at each grid point. -/
noncomputable def genWf (ty : WfType) (f a o d duration sample_rate : ℚ) :
    List ℚ × List ℝ :=
  (genTime duration sample_rate,
   (genTime duration sample_rate).map (waveValue ty f a o d))

/-- C1 counterexample: at `duration = 1/2`, `sample_rate = 3` the generated
time grid is `[0, 1/3, 2/3]`, whose last value `2/3` is not the duration
`1/2`, so the claimed `time[-1] = duration` fails for valid inputs whose
`duration × sample_rate` is not an integer. -/
theorem c1_counterexample :
    (genWf .square 1 1 0 50 (1/2) 3).1.getLast? = some (2/3) ∧
    ((2 : ℚ)/3) ≠ 1/2 := by
  have h : genTime (1/2) 3 = [0, 1/3, 2/3] := by
    have hc : sampleCount (1/2) 3 = 3 := by
      norm_num [sampleCount, round_eq]
      decide
    rw [genTime, hc]
    simp [List.range_succ]
  constructor
  · show (genTime (1/2) 3).getLast? = some (2/3)
    rw [h]
    rfl
  · norm_num

/-- C1 (amended): for every input, `gen_wf` returns two equal-length arrays
of length `round(duration × sample_rate) + 1`, with `time[i] = i / sample_rate`
for every index and `time[0] = 0`; the last time value is
`round(duration × sample_rate) / sample_rate`, which equals `duration`
whenever `duration × sample_rate` is a natural number — as on the app's fixed
sampling grid. -/
theorem c1_time_grid (ty : WfType) (f a o d duration sample_rate : ℚ) :
    (genWf ty f a o d duration sample_rate).1.length
      = (round (duration * sample_rate)).toNat + 1 ∧
    (genWf ty f a o d duration sample_rate).2.length
      = (round (duration * sample_rate)).toNat + 1 ∧
    (∀ i : ℕ, i < (round (duration * sample_rate)).toNat + 1 →
      (genWf ty f a o d duration sample_rate).1[i]? = some ((i : ℚ) / sample_rate)) ∧
    (genWf ty f a o d duration sample_rate).1.head? = some 0 ∧
    (genWf ty f a o d duration sample_rate).1.getLast?
      = some ((((round (duration * sample_rate)).toNat : ℕ) : ℚ) / sample_rate) ∧
    (∀ m : ℕ, 0 < sample_rate → duration * sample_rate = (m : ℚ) →
      (genWf ty f a o d duration sample_rate).1.getLast? = some duration) := by
  have hlen : (genTime duration sample_rate).length
      = (round (duration * sample_rate)).toNat + 1 := by
    simp [genTime, sampleCount]
  have hidx : ∀ i : ℕ, i < (round (duration * sample_rate)).toNat + 1 →
      (genTime duration sample_rate)[i]? = some ((i : ℚ) / sample_rate) := by
    intro i hi
    have hi2 : i < sampleCount duration sample_rate := hi
    rw [genTime, List.getElem?_map, List.getElem?_range hi2]
    rfl
  have hlast : (genTime duration sample_rate).getLast?
      = some ((((round (duration * sample_rate)).toNat : ℕ) : ℚ) / sample_rate) := by
    rw [List.getLast?_eq_getElem?, hlen]
    simpa [Nat.add_sub_cancel] using
      hidx (round (duration * sample_rate)).toNat (Nat.lt_succ_self _)
  refine ⟨hlen, ?_, hidx, ?_, hlast, ?_⟩
  · show ((genTime duration sample_rate).map _).length = _
    rw [List.length_map, hlen]
  · show (genTime duration sample_rate).head? = some 0
    rw [List.head?_eq_getElem?, hidx 0 (Nat.succ_pos _)]
    norm_num
  · intro m hsr hm
    have htn : (round (duration * sample_rate)).toNat = m := by
      rw [hm, round_natCast]
      simp
    have hd : duration = (m : ℚ) / sample_rate :=
      (eq_div_iff (ne_of_gt hsr)).mpr hm
    show (genTime duration sample_rate).getLast? = some duration
    rw [hlast, htn, ← hd]

/-- Witness for C1 (amended) at `duration = 1/2`, `sample_rate = 2`, where
`duration × sample_rate = 1`: the grid is `[0, 1/2]`, ending exactly at the
duration. -/
theorem c1_witness :
    (genWf .sine 1 1 0 50 (1/2) 2).1.length
      = (round ((1/2 : ℚ) * 2)).toNat + 1 ∧
    (genWf .sine 1 1 0 50 (1/2) 2).1.head? = some 0 ∧
    ((0 : ℕ) < (round ((1/2 : ℚ) * 2)).toNat + 1 ∧
      (genWf .sine 1 1 0 50 (1/2) 2).1[0]? = some (((0 : ℕ) : ℚ) / 2)) ∧
    ((0 : ℚ) < 2 ∧ (1/2 : ℚ) * 2 = ((1 : ℕ) : ℚ) ∧
      (genWf .sine 1 1 0 50 (1/2) 2).1.getLast? = some (1/2)) := by
  have h := c1_time_grid .sine 1 1 0 50 (1/2) 2
  exact ⟨h.1, h.2.2.2.1, ⟨Nat.succ_pos _, h.2.2.1 0 (Nat.succ_pos _)⟩,
    by norm_num, by norm_num, h.2.2.2.2.2 1 (by norm_num) (by norm_num)⟩

/-- Modelled from the spec: `compute_rms_env` of `waveform_generator` (not
under src/), §4.2: for each sample index `i`, the square root of the mean of
the squared amplitudes across the supplied aligned arrays; each array is
embedded as its amplitude indexed by sample position. -/
noncomputable def computeRmsEnv (arrays : List (ℕ → ℝ)) : ℕ → ℝ :=
  fun i => Real.sqrt (((arrays.map (fun a => a i ^ 2)).sum) / (arrays.length : ℝ))

/-- C2: on a non-empty list of aligned arrays, the RMS envelope at sample
index `i` is `sqrt(mean_k(amplitude_k[i]²))`; it is instantaneous — it depends
only on the arrays' values at that very sample index, not on any time window —
and on a single-array input it is `|amplitude[i]|` at every sample index. -/
theorem c2_rms_instantaneous_cross_signal
    (a : ℕ → ℝ) (rest : List (ℕ → ℝ)) (i : ℕ) :
    computeRmsEnv (a :: rest) i
      = Real.sqrt ((((a :: rest).map (fun g => g i ^ 2)).sum)
          / ((rest.length : ℝ) + 1)) ∧
    (∀ arrays arrays' : List (ℕ → ℝ), ∀ j : ℕ,
      arrays.map (fun g => g j) = arrays'.map (fun g => g j) →
      computeRmsEnv arrays j = computeRmsEnv arrays' j) ∧
    computeRmsEnv [a] i = |a i| := by
  refine ⟨by simp [computeRmsEnv], fun arrays arrays' j h => ?_,
    by simp [computeRmsEnv, Real.sqrt_sq_eq_abs]⟩
  unfold computeRmsEnv
  have hlen : arrays.length = arrays'.length := by
    simpa using congrArg List.length h
  have hmap : arrays.map (fun g => g j ^ 2) = arrays'.map (fun g => g j ^ 2) := by
    have h2 := congrArg (List.map (fun x : ℝ => x ^ 2)) h
    simpa [List.map_map, Function.comp] using h2
  rw [hmap, hlen]

/-- Witness for C2: the RMS of the single constant array 3 at sample 0 is
`|3| = 3`. -/
theorem c2_witness :
    computeRmsEnv [fun _ => (3 : ℝ)] 0 = |(3 : ℝ)| ∧ |(3 : ℝ)| = 3 :=
  ⟨(c2_rms_instantaneous_cross_signal (fun _ => (3 : ℝ)) [] 0).2.2, abs_of_pos (by norm_num)⟩

/-- An export record: the sampled arrays paired with the metadata block
(display name, kind and parameter values) that `prep_wf_for_export` receives
(src/ui_components.py lines 986-995). -/
structure ExportRecord where
  name : String
  time : List ℚ
  amp : List ℝ
  wf_type : WfType
  frequency : ℚ
  amplitude : ℚ
  offset : ℚ
  duty_cycle : ℚ

/-- Modelled from the spec: `prep_wf_for_export` of `data_export` (not under
src/), §4.4: pairs the sampled arrays with a metadata block holding the name
it is given together with the kind and parameter values. -/
def prepWfForExport (nm : String) (time : List ℚ) (amp : List ℝ) (ty : WfType)
    (f a o d : ℚ) : ExportRecord :=
  { name := nm, time := time, amp := amp, wf_type := ty, frequency := f,
    amplitude := a, offset := o, duty_cycle := d }

/-- `_on_export_clicked` (src/ui_components.py lines 959-995): one record per
enabled waveform, prepared with the waveform's display name with every space
replaced by an underscore (`wf.display_name.replace(" ", "_")`, line 986) and
the arrays `gen_wf` produced for it. -/
noncomputable def exportedRecords (st : AppState) : List ExportRecord :=
  (enabledWfs st).map (fun wf =>
    prepWfForExport (underscoreSpaces (displayName wf))
      (genWf wf.wf_type wf.freq wf.amp wf.offset wf.duty_cycle
        st.duration st.sample_rate).1
      (genWf wf.wf_type wf.freq wf.amp wf.offset wf.duty_cycle
        st.duration st.sample_rate).2
      wf.wf_type wf.freq wf.amp wf.offset wf.duty_cycle)

/-- One per-waveform descriptive line of the export file's metadata preamble
(§6: name, kind, frequency, amplitude, offset, duty cycle). -/
structure MetaLine where
  name : String
  wf_type : WfType
  frequency : ℚ
  amplitude : ℚ
  offset : ℚ
  duty_cycle : ℚ
deriving DecidableEq, Repr

/-- Modelled from the spec: the metadata preamble `export_to_csv` writes
(`data_export`, not under src/), §4.4/§6: nothing on an empty record list,
otherwise one descriptive line per waveform record carrying its name, kind,
frequency, amplitude, offset and duty cycle. -/
def exportFileMetaLines (records : List ExportRecord) : Option (List MetaLine) :=
  if records.isEmpty then none
  else some (records.map (fun r : ExportRecord =>
    { name := r.name, wf_type := r.wf_type, frequency := r.frequency,
      amplitude := r.amplitude, offset := r.offset,
      duty_cycle := r.duty_cycle }))

/-- C9 counterexample: the sole waveform of the single-member sample state has
display name "Waveform 1", but its export record is prepared under the name
"Waveform_1" — the metadata block does not contain the waveform's display
name whenever that name contains a space (as every default name does). -/
theorem c9_counterexample :
    displayName sampleWf = "Waveform 1" ∧
    (exportedRecords singleState).map (fun r => r.name) = ["Waveform_1"] ∧
    ("Waveform_1" : String) ≠ "Waveform 1" := by
  refine ⟨by decide, ?_, by decide⟩
  have hE : enabledWfs singleState = [sampleWf] := by decide
  simp only [exportedRecords, hE, List.map_cons, List.map_nil, prepWfForExport]
  decide

/-- C9 (amended): each export record pairs the sampled arrays with a metadata
block holding the waveform's display name with spaces replaced by underscores
(together with its kind and parameter values), and the written file's
per-waveform metadata line records exactly that underscored name. -/
theorem c9_export_records_underscored_names (st : AppState) :
    (exportedRecords st).map (fun r => r.name)
      = (enabledWfs st).map (fun wf => underscoreSpaces (displayName wf)) ∧
    (∀ ms, exportFileMetaLines (exportedRecords st) = some ms →
      ms.map (fun x => x.name)
        = (enabledWfs st).map (fun wf => underscoreSpaces (displayName wf))) := by
  have h1 : (exportedRecords st).map (fun r => r.name)
      = (enabledWfs st).map (fun wf => underscoreSpaces (displayName wf)) := by
    simp only [exportedRecords, List.map_map]
    rfl
  refine ⟨h1, fun ms hms => ?_⟩
  by_cases he : (exportedRecords st).isEmpty
  · simp [exportFileMetaLines, he] at hms
  · simp only [exportFileMetaLines, he, Bool.false_eq_true, if_false,
      Option.some.injEq] at hms
    subst hms
    rw [List.map_map]
    exact h1

/-- Witness for C9 (amended) at the single-member sample state: the file's one
metadata line carries the underscored name "Waveform_1". -/
theorem c9_witness :
    exportFileMetaLines (exportedRecords singleState)
      = some [{ name := "Waveform_1", wf_type := .square, frequency := 1,
                amplitude := 1, offset := 0, duty_cycle := 50 }] ∧
    ([({ name := "Waveform_1", wf_type := .square, frequency := 1,
         amplitude := 1, offset := 0, duty_cycle := 50 } : MetaLine)].map
        (fun x => x.name))
      = (enabledWfs singleState).map (fun wf => underscoreSpaces (displayName wf)) := by
  have hE : enabledWfs singleState = [sampleWf] := by decide
  have hm : exportFileMetaLines (exportedRecords singleState)
      = some [{ name := "Waveform_1", wf_type := .square, frequency := 1,
                amplitude := 1, offset := 0, duty_cycle := 50 }] := by
    simp only [exportFileMetaLines, exportedRecords, hE, List.map_cons,
      List.map_nil, List.isEmpty_cons, Bool.false_eq_true, if_false,
      prepWfForExport]
    decide
  exact ⟨hm, (c9_export_records_underscored_names singleState).2 _ hm⟩

end WaveformAnalyzer
